import Mathlib

/-!
Shallow embedding of `src/main.rs` of the simple-web-server-rust repository:
a single-threaded readiness-driven HTTP server.  Bytes are modelled as `Nat`
(values < 256 in practice), byte buffers as `List Nat`, and decoded text as
`List Char`.  The filesystem, the OS readiness registration calls and socket
I/O are external effects; they are passed in as explicit oracle arguments
(`FS`, `IOOutcome`, read results), so every function below is executable.
-/

namespace WebSrv

/-- ASCII byte sequence of a Lean string (all literals used here are ASCII,
so this coincides with the UTF-8 bytes produced by Rust's `String::into_bytes`). -/
def asciiOf (s : String) : List Nat := s.data.map Char.toNat

/-- Document root suffix, `const WEBROOT: &str = "/webroot"` in `main.rs`. -/
def WEBROOT : List Char := ("/webroot").toList

/-- Outcome of trying to open and fully read a file at a path: the file may
fail to open (`absent`: not found, permission denied, ...), open but fail
during `read_to_end` (`readError`: e.g. reading a directory on Linux), or be
read completely (`content`). -/
inductive FileOutcome where
  | absent
  | readError
  | content (data : List Nat)
deriving DecidableEq

/-- Filesystem oracle: what opening plus reading each path yields. -/
def FS : Type := List Char → FileOutcome

/-- Error values that `make_response` can propagate (the `anyhow::Error`
cases reachable inside it). -/
inductive MakeErr where
  | utf8Error
  | readFailed
  | badStatus
deriving DecidableEq

/-- Embedding of `create_msg_from_code` (main.rs lines 182-207): status 200
emits the fixed lowercase `server:` header and appends the payload verbatim
when present; 400, 404 and 501 emit only their fixed `Server:` headers and
ignore the payload argument; any other status is an error. -/
def create_msg_from_code (status_code : Nat) (msg : Option (List Nat)) :
    Except MakeErr (List Nat) :=
  match status_code with
  | 200 =>
    match msg with
    | some m => .ok (asciiOf "HTTP/1.0 200 OK\r\nserver: mio webserver\r\n\r\n" ++ m)
    | none => .ok (asciiOf "HTTP/1.0 200 OK\r\nserver: mio webserver\r\n\r\n")
  | 400 => .ok (asciiOf "HTTP/1.0 400 Bad Request\r\nServer: mio webserver\r\n\r\n")
  | 404 => .ok (asciiOf "HTTP/1.0 404 Not Found\r\nServer: mio webserver\r\n\r\n")
  | 501 => .ok (asciiOf "HTTP/1.0 501 Not Implemented\r\nServer: mio webserver\r\n\r\n")
  | _ => .error .badStatus

/-- The fixed 200 header bytes. -/
def resp200hdr : List Nat := asciiOf "HTTP/1.0 200 OK\r\nserver: mio webserver\r\n\r\n"

/-- The fixed 400 response bytes. -/
def resp400 : List Nat := asciiOf "HTTP/1.0 400 Bad Request\r\nServer: mio webserver\r\n\r\n"

/-- The fixed 404 response bytes. -/
def resp404 : List Nat := asciiOf "HTTP/1.0 404 Not Found\r\nServer: mio webserver\r\n\r\n"

/-- The fixed 501 response bytes. -/
def resp501 : List Nat := asciiOf "HTTP/1.0 501 Not Implemented\r\nServer: mio webserver\r\n\r\n"

/-- Is a byte a UTF-8 continuation byte (0x80..0xBF)? -/
def contByte (b : Nat) : Bool := 0x80 ≤ b && b < 0xC0

/-- Strict UTF-8 decoding, the semantics of Rust's `std::str::from_utf8`:
rejects continuation-byte starts, overlong encodings (0xC0/0xC1, 0xE0 with
low second byte, 0xF0 with low second byte), surrogates (0xED with high
second byte), code points above U+10FFFF (0xF4 with high second byte,
leads 0xF5..0xFF) and truncated sequences. -/
def utf8Decode : List Nat → Option (List Char)
  | [] => some []
  | b :: bs =>
    if b < 0x80 then
      (utf8Decode bs).map (fun cs => Char.ofNat b :: cs)
    else if b < 0xC2 then none
    else if b < 0xE0 then
      match bs with
      | b1 :: bs1 =>
        if contByte b1 then
          (utf8Decode bs1).map
            (fun cs => Char.ofNat ((b - 0xC0) * 0x40 + (b1 - 0x80)) :: cs)
        else none
      | [] => none
    else if b < 0xF0 then
      match bs with
      | b1 :: b2 :: bs2 =>
        if (if b = 0xE0 then decide (0xA0 ≤ b1) && decide (b1 < 0xC0)
            else if b = 0xED then decide (0x80 ≤ b1) && decide (b1 < 0xA0)
            else contByte b1) && contByte b2 then
          (utf8Decode bs2).map
            (fun cs =>
              Char.ofNat ((b - 0xE0) * 0x1000 + (b1 - 0x80) * 0x40 + (b2 - 0x80)) :: cs)
        else none
      | _ => none
    else if b < 0xF5 then
      match bs with
      | b1 :: b2 :: b3 :: bs3 =>
        if (if b = 0xF0 then decide (0x90 ≤ b1) && decide (b1 < 0xC0)
            else if b = 0xF4 then decide (0x80 ≤ b1) && decide (b1 < 0x90)
            else contByte b1) && contByte b2 && contByte b3 then
          (utf8Decode bs3).map
            (fun cs =>
              Char.ofNat ((b - 0xF0) * 0x40000 + (b1 - 0x80) * 0x1000
                + (b2 - 0x80) * 0x40 + (b3 - 0x80)) :: cs)
        else none
      | _ => none
    else none

/-!
Model of the request-line pattern match (main.rs line 152):

    Regex::new(r"(.*) (.*) HTTP/1.([0-1])\r\n.*")

The Rust `regex` crate uses leftmost-first (Perl-like priority) semantics and,
by default, `.` matches any character except `\n`.  The `.` after `HTTP/1` is
an unescaped metacharacter, so it matches ANY non-newline character, not just
a dot.  `captures` searches every starting position left to right; at the
leftmost position admitting a match, the greedy `(.*)` groups take the longest
extents that still allow the whole pattern to match.  The functions below
implement exactly that backtracking search for this one pattern:
`tailCap` recognises ` HTTP/1` + one non-newline char + a `0`/`1` digit +
`\r\n` (the trailing `.*` constrains nothing); `findG2` tries the second
group's splits longest-first; `findG1` tries the first group's splits
longest-first; `searchFrom` tries start positions leftmost-first.
-/

/-- The fixed tail shape a match must reach after the second capture group:
a space, the literal `HTTP/1`, one arbitrary character, the version digit,
then CRLF and arbitrary remaining characters. -/
def tailForm (c d : Char) (rest : List Char) : List Char :=
  ' ' :: 'H' :: 'T' :: 'T' :: 'P' :: '/' :: '1' :: c :: d :: '\r' :: '\n' :: rest

/-- Try to match ` HTTP/1` + any-non-newline + `[0-1]` + `\r\n` at the head of
`v`; on success return the captured version digit. -/
def tailCap : List Char → Option Char
  | a1 :: a2 :: a3 :: a4 :: a5 :: a6 :: a7 :: c :: d :: a10 :: a11 :: _rest =>
    if [a1, a2, a3, a4, a5, a6, a7] = [' ', 'H', 'T', 'T', 'P', '/', '1']
        ∧ a10 = '\r' ∧ a11 = '\n' ∧ c ≠ '\n' ∧ (d = '0' ∨ d = '1')
    then some d else none
  | _ => none

/-- Greedy search for the second capture group: the longest newline-free
prefix of `v` after which `tailCap` succeeds; returns that prefix and the
version digit. -/
def findG2 : List Char → Option (List Char × Char)
  | [] => none
  | a :: v =>
    match (if a = '\n' then none
           else (findG2 v).map (fun r => (a :: r.1, r.2))) with
    | some r => some r
    | none =>
      match tailCap (a :: v) with
      | some d => some ([], d)
      | none => none

/-- Greedy search for the first capture group: the longest newline-free
prefix of `u` followed by a space after which `findG2` succeeds; returns
(group 1, group 2, version digit). -/
def findG1 : List Char → Option (List Char × List Char × Char)
  | [] => none
  | a :: u =>
    match (if a = '\n' then none
           else (findG1 u).map (fun r => (a :: r.1, r.2))) with
    | some r => some r
    | none =>
      if a = ' ' then
        match findG2 u with
        | some r => some ([], r.1, r.2)
        | none => none
      else none

/-- Leftmost search: the captures of the pattern at the earliest start
position where it matches.  This models `http_pattern.captures(text)`,
returning (captures[1], captures[2], captures[3]). -/
def searchFrom : List Char → Option (List Char × List Char × Char)
  | [] => none
  | a :: t =>
    match findG1 (a :: t) with
    | some r => some r
    | none => searchFrom t

/-- Embedding of `make_response` (main.rs lines 150-180).  `cwd` models
`env::current_dir()`, `fs` the filesystem.  Faithful control flow:
invalid UTF-8 propagates as an error via `?` (it does NOT produce a 400);
no regex match produces the 400 response; a non-`GET` method produces 501;
for `GET`, `File::open` failure produces 404 but a `read_to_end` failure
after a successful open propagates as an error via `?`. -/
def make_response (cwd : List Char) (fs : FS) (buffer : List Nat) :
    Except MakeErr (List Nat) :=
  match utf8Decode buffer with
  | none => .error .utf8Error
  | some s =>
    match searchFrom s with
    | none => create_msg_from_code 400 none
    | some (method, path, _version) =>
      if method = ("GET").toList then
        match fs (cwd ++ WEBROOT ++ path) with
        | .absent => create_msg_from_code 404 none
        | .readError => .error .readFailed
        | .content data => create_msg_from_code 200 (some data)
      else
        create_msg_from_code 501 none

/-!
Connection Table and Event Loop state.  `connections: HashMap<usize,
TcpStream>` is modelled as an association list with unique keys from
connection id to an abstract socket handle (`Nat`); `lookupConn`,
`removeConn` and `insertConn` model `get_mut`, `remove` and `insert`.
-/

/-- Map lookup, modelling `self.connections.get_mut(&conn_id)`. -/
def lookupConn : List (Nat × Nat) → Nat → Option Nat
  | [], _ => none
  | (k, v) :: t, i => if k = i then some v else lookupConn t i

/-- Map removal, modelling `self.connections.remove(&conn_id)` (idempotent,
a no-op on an absent key). -/
def removeConn : List (Nat × Nat) → Nat → List (Nat × Nat)
  | [], _ => []
  | (k, v) :: t, i => if k = i then removeConn t i else (k, v) :: removeConn t i

/-- Map insertion, modelling `self.connections.insert(k, v)`: a colliding
key's previous entry is replaced (its socket dropped); the collision is only
logged in the source and does not change control flow. -/
def insertConn (c : List (Nat × Nat)) (k v : Nat) : List (Nat × Nat) :=
  (k, v) :: removeConn c k

/-- Result of an external OS call that the source only checks for success
(`poll.registry().register`, `reregister`, `stream.write_all`). -/
inductive IOOutcome where
  | success
  | failure
deriving DecidableEq

/-- The `WebServer` struct fields that `register_connection` touches. -/
structure WebServer where
  connections : List (Nat × Nat)
  next_connection_id : Nat
deriving DecidableEq

/-- Error value returned (and then logged by the caller in `run`) when
registering a freshly accepted socket fails. -/
inductive RegError where
  | registerFailed
deriving DecidableEq

/-- Embedding of `register_connection` (main.rs lines 90-104).
`registerResult` is the outcome of the external `poll.registry().register`
call.  Faithful control flow: on registration failure the `?` operator
returns early, so the socket is NOT inserted and `next_connection_id` is NOT
advanced; on success the socket is inserted under the current id (a collision
is only logged) and the id counter advances. -/
def register_connection (srv : WebServer) (stream : Nat)
    (registerResult : IOOutcome) : WebServer × Option RegError :=
  match registerResult with
  | .failure => (srv, some .registerFailed)
  | .success =>
    (⟨insertConn srv.connections srv.next_connection_id stream,
      srv.next_connection_id + 1⟩, none)

/-- Error values `http_handler` can return to `run` (which logs them). -/
inductive HandlerError where
  | invalidConnId
  | readFailed
  | responseFailed (e : MakeErr)
  | reregFailed
  | writeFailed
  | undefinedEvent
deriving DecidableEq

/-- Observable outcome of one `http_handler` call: the connection table and
shared response buffer after the call, and the bytes fully written to the
socket, if any complete write happened. -/
structure HandlerOut where
  connections : List (Nat × Nat)
  response : List Nat
  written : Option (List Nat)
deriving DecidableEq

/-- Embedding of `http_handler` (main.rs lines 109-146).  `is_readable` and
`is_writable` are the readiness event's flags, checked in source order
(readable first).  `readResult` is the outcome of `stream.read` (`none` for
an I/O error, `some data` for `Ok` with the bytes read, at most 1024);
`reregResult` and `writeResult` are the outcomes of the external
`reregister` and `write_all` calls.  Faithful control flow, including the
`?` early returns: an unknown id changes nothing; on a readable event a
non-empty read builds the response into the shared buffer and reregisters
for writes (a `make_response` error leaves the buffer unchanged; a
reregister failure happens after the buffer was already overwritten), while
an empty read removes the connection; on a writable event a successful
`write_all` sends the whole buffer and removes the connection, but a write
error returns early, leaving the connection in the table. -/
def http_handler (conns : List (Nat × Nat)) (response : List Nat)
    (conn_id : Nat) (is_readable is_writable : Bool)
    (readResult : Option (List Nat)) (reregResult writeResult : IOOutcome)
    (cwd : List Char) (fs : FS) : HandlerOut × Option HandlerError :=
  match lookupConn conns conn_id with
  | none => (⟨conns, response, none⟩, some .invalidConnId)
  | some _stream =>
    if is_readable then
      match readResult with
      | none => (⟨conns, response, none⟩, some .readFailed)
      | some data =>
        if data ≠ [] then
          match make_response cwd fs data with
          | .error e => (⟨conns, response, none⟩, some (.responseFailed e))
          | .ok resp =>
            match reregResult with
            | .failure => (⟨conns, resp, none⟩, some .reregFailed)
            | .success => (⟨conns, resp, none⟩, none)
        else
          (⟨removeConn conns conn_id, response, none⟩, none)
    else if is_writable then
      match writeResult with
      | .failure => (⟨conns, response, none⟩, some .writeFailed)
      | .success => (⟨removeConn conns conn_id, response, some response⟩, none)
    else
      (⟨conns, response, none⟩, some .undefinedEvent)

/-!
The declarative language of the request-line pattern, and example oracles
used in concrete statements.
-/

/-- Declarative reading of the pattern `(.*) (.*) HTTP/1.([0-1])\r\n.*`
matching somewhere in `s`: some position is followed by a space (preceded
by the first group, which together with the text before the match start is
the arbitrary prefix `α`), then a newline-free second group, then
` HTTP/1`, any non-newline character, a `0` or `1` digit and CRLF. -/
def regexMatchable (s : List Char) : Prop :=
  ∃ α g2 c d rest, s = α ++ ' ' :: (g2 ++ tailForm c d rest)
    ∧ '\n' ∉ g2 ∧ c ≠ '\n' ∧ (d = '0' ∨ d = '1')

/-- The request-line shape as the specification words it: method token,
path token, then the literal protocol suffix `HTTP/1.` with a version
digit, terminated by CRLF, with arbitrary following bytes. -/
def requiredShape (s : List Char) : Prop :=
  ∃ m p d r, (d = '0' ∨ d = '1')
    ∧ s = m ++ [' '] ++ p
        ++ ([' ', 'H', 'T', 'T', 'P', '/', '1', '.'] ++ [d] ++ ['\r', '\n']) ++ r

/-- Filesystem oracle with no readable files at all. -/
def emptyFS : FS := fun _ => .absent

/-- Filesystem oracle on which every open succeeds but every read fails. -/
def readErrFS : FS := fun _ => .readError

/-- Filesystem oracle serving one file, `/webroot/x` with content byte 88,
relative to an empty current directory. -/
def xFS : FS := fun p => if p = ("/webroot/x").toList then .content [88] else .absent

/-- Filesystem oracle serving `/webroot/index.html` with content `hello`. -/
def indexFS : FS :=
  fun p => if p = ("/webroot/index.html").toList then .content (asciiOf "hello") else .absent

end WebSrv

namespace WebSrv

lemma tailCap_sound (v : List Char) (d : Char) (h : tailCap v = some d) :
    ∃ c rest, v = tailForm c d rest ∧ c ≠ '\n' ∧ (d = '0' ∨ d = '1') := by
  unfold tailCap at h
  split at h
  · rename_i a1 a2 a3 a4 a5 a6 a7 c d0 a10 a11 rest
    split at h
    · rename_i hcond
      obtain ⟨h7, h10, h11, hcn, hd⟩ := hcond
      injection h with hd0
      subst hd0
      simp only [List.cons.injEq, and_true] at h7
      obtain ⟨rfl, rfl, rfl, rfl, rfl, rfl, rfl⟩ := h7
      subst h10; subst h11
      exact ⟨c, rest, rfl, hcn, hd⟩
    · cases h
  · cases h

lemma findG2_cons (a : Char) (v : List Char) :
    findG2 (a :: v) =
      match (if a = '\n' then none
             else (findG2 v).map (fun r => (a :: r.1, r.2))) with
      | some r => some r
      | none =>
        match tailCap (a :: v) with
        | some d => some ([], d)
        | none => none := by
  rw [findG2]

lemma findG1_cons (a : Char) (u : List Char) :
    findG1 (a :: u) =
      match (if a = '\n' then none
             else (findG1 u).map (fun r => (a :: r.1, r.2))) with
      | some r => some r
      | none =>
        if a = ' ' then
          match findG2 u with
          | some r => some ([], r.1, r.2)
          | none => none
        else none := by
  rw [findG1]

lemma searchFrom_cons (a : Char) (t : List Char) :
    searchFrom (a :: t) =
      match findG1 (a :: t) with
      | some r => some r
      | none => searchFrom t := by
  rw [searchFrom]

lemma findG2_sound : ∀ (v g2 : List Char) (d : Char),
    findG2 v = some (g2, d) →
    ∃ c rest, v = g2 ++ tailForm c d rest ∧ '\n' ∉ g2 ∧ c ≠ '\n' ∧ (d = '0' ∨ d = '1') := by
  intro v
  induction v with
  | nil => intro g2 d h; simp [findG2] at h
  | cons a v ih =>
    intro g2 d h
    rw [findG2_cons] at h
    split at h
    · rename_i r hr
      injection h with h; subst h
      split at hr
      · cases hr
      · rename_i ha
        rw [Option.map_eq_some'] at hr
        obtain ⟨⟨g2', d'⟩, hg, hf⟩ := hr
        have hf' : a :: g2' = g2 ∧ d' = d := by simpa using hf
        obtain ⟨rfl, rfl⟩ := hf'
        obtain ⟨c, rest, hv, hnotin, hc, hd⟩ := ih g2' d' hg
        refine ⟨c, rest, by rw [hv]; rfl, ?_, hc, hd⟩
        intro hmem
        rcases List.mem_cons.mp hmem with h1 | h1
        · exact ha h1.symm
        · exact hnotin h1
    · rename_i hnone
      split at h
      · rename_i d0 htc
        injection h with h
        have h' : g2 = [] ∧ d0 = d := by
          constructor
          · exact (congrArg Prod.fst h).symm
          · exact congrArg Prod.snd h
        obtain ⟨rfl, rfl⟩ := h'
        obtain ⟨c, rest, hv, hc, hd⟩ := tailCap_sound (a :: v) d0 htc
        exact ⟨c, rest, hv, by simp, hc, hd⟩
      · cases h

lemma findG1_sound : ∀ (u g1 g2 : List Char) (d : Char),
    findG1 u = some (g1, g2, d) →
    ∃ c rest, u = g1 ++ ' ' :: (g2 ++ tailForm c d rest)
      ∧ '\n' ∉ g1 ∧ '\n' ∉ g2 ∧ c ≠ '\n' ∧ (d = '0' ∨ d = '1') := by
  intro u
  induction u with
  | nil => intro g1 g2 d h; simp [findG1] at h
  | cons a u ih =>
    intro g1 g2 d h
    rw [findG1_cons] at h
    split at h
    · rename_i r hr
      injection h with h; subst h
      split at hr
      · cases hr
      · rename_i ha
        rw [Option.map_eq_some'] at hr
        obtain ⟨⟨g1', g2', d'⟩, hg, hf⟩ := hr
        have hf' : a :: g1' = g1 ∧ g2' = g2 ∧ d' = d := by simpa using hf
        obtain ⟨rfl, rfl, rfl⟩ := hf'
        obtain ⟨c, rest, hv, hn1, hn2, hc, hd⟩ := ih g1' g2' d' hg
        refine ⟨c, rest, by rw [hv]; rfl, ?_, hn2, hc, hd⟩
        intro hmem
        rcases List.mem_cons.mp hmem with h1 | h1
        · exact ha h1.symm
        · exact hn1 h1
    · rename_i hnone
      split at h
      · rename_i ha
        split at h
        · rename_i r0 hr0
          injection h with h
          have h' : g1 = [] ∧ r0 = (g2, d) := by
            refine ⟨(congrArg (fun x => x.1) h).symm, ?_⟩
            have h2 : r0.1 = g2 := congrArg (fun x => x.2.1) h
            have h3 : r0.2 = d := congrArg (fun x => x.2.2) h
            rw [← h2, ← h3]
          obtain ⟨rfl, rfl⟩ := h'
          obtain ⟨c, rest, hv, hn2, hc, hd⟩ := findG2_sound u g2 d hr0
          subst ha
          exact ⟨c, rest, by rw [hv]; rfl, by simp, hn2, hc, hd⟩
        · cases h
      · cases h

lemma searchFrom_sound : ∀ (s : List Char) (r : List Char × List Char × Char),
    searchFrom s = some r → ∃ pre u, s = pre ++ u ∧ findG1 u = some r := by
  intro s
  induction s with
  | nil => intro r h; simp [searchFrom] at h
  | cons a t ih =>
    intro r h
    rw [searchFrom_cons] at h
    split at h
    · rename_i r0 hr0
      injection h with h; subst h
      exact ⟨[], a :: t, rfl, hr0⟩
    · obtain ⟨pre, u, hs, hu⟩ := ih r h
      exact ⟨a :: pre, u, by rw [hs]; rfl, hu⟩

lemma tailCap_complete (c d : Char) (rest : List Char) (hc : c ≠ '\n')
    (hd : d = '0' ∨ d = '1') : tailCap (tailForm c d rest) = some d := by
  rw [tailForm]
  show (if ([' ', 'H', 'T', 'T', 'P', '/', '1'] = [' ', 'H', 'T', 'T', 'P', '/', '1']
      ∧ '\r' = '\r' ∧ '\n' = '\n' ∧ c ≠ '\n' ∧ (d = '0' ∨ d = '1'))
      then some d else none) = some d
  rw [if_pos ⟨rfl, rfl, rfl, hc, hd⟩]

lemma findG2_complete : ∀ (g2 : List Char) (c d : Char) (rest : List Char),
    '\n' ∉ g2 → c ≠ '\n' → (d = '0' ∨ d = '1') →
    (findG2 (g2 ++ tailForm c d rest)).isSome = true := by
  intro g2
  induction g2 with
  | nil =>
    intro c d rest _ hc hd
    have htc := tailCap_complete c d rest hc hd
    rw [List.nil_append, tailForm, findG2_cons,
      if_neg (by decide : ¬ (' ' = '\n'))]
    rw [tailForm] at htc
    cases hT : findG2 ('H' :: 'T' :: 'T' :: 'P' :: '/' :: '1' :: c :: d :: '\r' :: '\n' :: rest) with
    | some r => rfl
    | none =>
      show (match tailCap (' ' :: 'H' :: 'T' :: 'T' :: 'P' :: '/' :: '1' :: c :: d :: '\r' :: '\n' :: rest) with
            | some d => some (([] : List Char), d)
            | none => none).isSome = true
      rw [htc]
      rfl
  | cons a g2' ih =>
    intro c d rest hg hc hd
    have ha : ¬ (a = '\n') := by intro h1; subst h1; exact hg (List.mem_cons_self _ _)
    have hg' : '\n' ∉ g2' := fun h1 => hg (List.mem_cons_of_mem _ h1)
    obtain ⟨r, hr⟩ := Option.isSome_iff_exists.mp (ih c d rest hg' hc hd)
    rw [List.cons_append, findG2_cons, if_neg ha, hr]
    rfl

lemma findG1_complete : ∀ (g1 v : List Char), '\n' ∉ g1 →
    (findG2 v).isSome = true → (findG1 (g1 ++ ' ' :: v)).isSome = true := by
  intro g1
  induction g1 with
  | nil =>
    intro v _ hv
    obtain ⟨r, hr⟩ := Option.isSome_iff_exists.mp hv
    rw [List.nil_append, findG1_cons, if_neg (by decide : ¬ (' ' = '\n'))]
    cases hF : findG1 v with
    | some r0 => rfl
    | none =>
      show (if ' ' = ' ' then
              match findG2 v with
              | some r => some (([] : List Char), r.1, r.2)
              | none => none
            else none).isSome = true
      rw [if_pos rfl, hr]
      rfl
  | cons a g1' ih =>
    intro v hg hv
    have ha : ¬ (a = '\n') := by intro h1; subst h1; exact hg (List.mem_cons_self _ _)
    have hg' : '\n' ∉ g1' := fun h1 => hg (List.mem_cons_of_mem _ h1)
    obtain ⟨r, hr⟩ := Option.isSome_iff_exists.mp (ih v hg' hv)
    rw [List.cons_append, findG1_cons, if_neg ha, hr]
    rfl

lemma searchFrom_complete : ∀ (pre u : List Char),
    (findG1 u).isSome = true → (searchFrom (pre ++ u)).isSome = true := by
  intro pre
  induction pre with
  | nil =>
    intro u hu
    obtain ⟨r, hr⟩ := Option.isSome_iff_exists.mp hu
    cases u with
    | nil => simp [findG1] at hr
    | cons a t => rw [List.nil_append, searchFrom_cons, hr]; rfl
  | cons a pre' ih =>
    intro u hu
    rw [List.cons_append, searchFrom_cons]
    cases hF : findG1 (a :: (pre' ++ u)) with
    | some r => rfl
    | none => exact ih u hu

lemma searchFrom_isSome_iff (s : List Char) :
    (searchFrom s).isSome = true ↔ regexMatchable s := by
  constructor
  · intro h
    obtain ⟨⟨g1, g2, d⟩, hr⟩ := Option.isSome_iff_exists.mp h
    obtain ⟨pre, u, hs, hu⟩ := searchFrom_sound s _ hr
    obtain ⟨c, rest, hu2, _hg1, hg2, hc, hd⟩ := findG1_sound u g1 g2 d hu
    refine ⟨pre ++ g1, g2, c, d, rest, ?_, hg2, hc, hd⟩
    rw [hs, hu2, List.append_assoc]
  · rintro ⟨α, g2, c, d, rest, rfl, hg2, hc, hd⟩
    have h2 := findG2_complete g2 c d rest hg2 hc hd
    have h1 := findG1_complete [] (g2 ++ tailForm c d rest) (by simp) h2
    rw [List.nil_append] at h1
    exact searchFrom_complete α (' ' :: (g2 ++ tailForm c d rest)) h1

end WebSrv

namespace WebSrv

/-! Reduction helpers for `make_response` and the connection table. -/

lemma make_response_badutf8 (cwd : List Char) (fs : FS) (b : List Nat)
    (hdec : utf8Decode b = none) : make_response cwd fs b = .error .utf8Error := by
  simp only [make_response, hdec]

lemma make_response_nomatch (cwd : List Char) (fs : FS) (b : List Nat) (s : List Char)
    (hdec : utf8Decode b = some s) (hparse : searchFrom s = none) :
    make_response cwd fs b = create_msg_from_code 400 none := by
  simp only [make_response, hdec, hparse]

lemma make_response_parsed (cwd : List Char) (fs : FS) (b : List Nat)
    (s m p : List Char) (v : Char)
    (hdec : utf8Decode b = some s) (hparse : searchFrom s = some (m, p, v)) :
    make_response cwd fs b =
      if m = ("GET").toList then
        match fs (cwd ++ WEBROOT ++ p) with
        | .absent => create_msg_from_code 404 none
        | .readError => .error .readFailed
        | .content data => create_msg_from_code 200 (some data)
      else create_msg_from_code 501 none := by
  simp only [make_response, hdec, hparse]

lemma lookupConn_removeConn (c : List (Nat × Nat)) (i j : Nat) (h : j ≠ i) :
    lookupConn (removeConn c i) j = lookupConn c j := by
  induction c with
  | nil => rfl
  | cons kv t ih =>
    obtain ⟨k, v⟩ := kv
    by_cases hk : k = i
    · subst hk
      rw [removeConn, if_pos rfl, ih, lookupConn, if_neg (fun hij => h hij.symm)]
    · rw [removeConn, if_neg hk, lookupConn, lookupConn]
      by_cases hkj : k = j
      · rw [if_pos hkj, if_pos hkj]
      · rw [if_neg hkj, if_neg hkj, ih]

end WebSrv

namespace WebSrv

/-- Claim C1: for every request whose bytes decode as text and parse to a
`GET` request line, and whose extracted path appended to the document root
(current directory plus `/webroot`) names a file that opens and reads
successfully, `make_response` returns exactly the 200 header bytes
`HTTP/1.0 200 OK\r\nserver: mio webserver\r\n\r\n` followed by the file's
exact byte content, with no transformation of the payload. -/
theorem c1_get_serves_file_bytes (cwd : List Char) (fs : FS) (b : List Nat)
    (s p : List Char) (v : Char) (data : List Nat)
    (hdec : utf8Decode b = some s)
    (hparse : searchFrom s = some (("GET").toList, p, v))
    (hfile : fs (cwd ++ WEBROOT ++ p) = .content data) :
    make_response cwd fs b = .ok (resp200hdr ++ data) := by
  rw [make_response_parsed cwd fs b s (("GET").toList) p v hdec hparse,
    if_pos rfl, hfile]
  rfl

/-- Witness for C1, the spec's own scenario: `GET /index.html HTTP/1.0` with
`index.html` containing `hello` yields the 200 header followed by `hello`. -/
theorem c1_witness :
    make_response [] indexFS (asciiOf "GET /index.html HTTP/1.0\r\n\r\n")
      = .ok (resp200hdr ++ asciiOf "hello") :=
  c1_get_serves_file_bytes [] indexFS (asciiOf "GET /index.html HTTP/1.0\r\n\r\n")
    (("GET /index.html HTTP/1.0\r\n\r\n").toList) (("/index.html").toList) '0'
    (asciiOf "hello") (by decide) (by decide) (by decide)

/-- Claim C2: `create_msg_from_code` with status 200 yields the fixed 200
header (lowercase `server:`) followed by the payload verbatim, and with
statuses 400, 404 and 501 yields exactly the fixed header byte sequences
(uppercase `Server:`) with no body, ignoring any payload argument. -/
theorem c2_create_msg_from_code_exact (payload : List Nat) (msg : Option (List Nat)) :
    create_msg_from_code 200 (some payload) = .ok (resp200hdr ++ payload)
    ∧ create_msg_from_code 200 none = .ok resp200hdr
    ∧ create_msg_from_code 400 msg = .ok resp400
    ∧ create_msg_from_code 404 msg = .ok resp404
    ∧ create_msg_from_code 501 msg = .ok resp501 :=
  ⟨rfl, rfl, rfl, rfl, rfl⟩

/-- Counterexample to claim C3 as stated: on a writable event whose
`write_all` returns an error, the `?` operator propagates the error before
`connections.remove` runs, so the connection is NOT removed — removal is not
unconditional. Concretely, with connection 1 in the table and a failing
write, the table still holds connection 1 afterwards. -/
theorem c3_counterexample :
    (http_handler [(1, 7)] [42] 1 false true none .success .failure [] emptyFS).1.connections
      = [(1, 7)]
    ∧ (http_handler [(1, 7)] [42] 1 false true none .success .failure [] emptyFS).2
      = some .writeFailed
    ∧ removeConn [(1, 7)] 1 ≠ [(1, 7)] := by
  refine ⟨rfl, rfl, by decide⟩

/-- Claim C3 as amended: on a writable event, when `write_all` succeeds the
entire pending-response buffer is written and the connection is removed; when
`write_all` fails the error propagates and the connection is NOT removed (and
nothing is recorded as fully written). -/
theorem c3_write_removes_only_on_success (conns : List (Nat × Nat))
    (response : List Nat) (conn_id sock : Nat) (readResult : Option (List Nat))
    (rereg : IOOutcome) (cwd : List Char) (fs : FS)
    (hlook : lookupConn conns conn_id = some sock) :
    http_handler conns response conn_id false true readResult rereg .success cwd fs
      = (⟨removeConn conns conn_id, response, some response⟩, none)
    ∧ http_handler conns response conn_id false true readResult rereg .failure cwd fs
      = (⟨conns, response, none⟩, some .writeFailed) := by
  constructor <;> (unfold http_handler; rw [hlook]; rfl)

/-- Witness for the amended C3 at a concrete state. -/
theorem c3_witness :
    http_handler [(1, 7)] [42] 1 false true none .success .success [] emptyFS
      = (⟨[], [42], some [42]⟩, none)
    ∧ http_handler [(1, 7)] [42] 1 false true none .success .failure [] emptyFS
      = (⟨[(1, 7)], [42], none⟩, some .writeFailed) := by
  have h := c3_write_removes_only_on_success [(1, 7)] [42] 1 7 none .success [] emptyFS (by decide)
  exact ⟨by rw [h.1]; rfl, h.2⟩

/-- Counterexample to claim C4 as stated: on input bytes that are not valid
UTF-8 (here the single byte 255), `std::str::from_utf8(buffer)?` propagates
the decoding error out of `make_response`, so the result is an error, not
the 400 Bad Request response bytes. -/
theorem c4_counterexample :
    make_response [] emptyFS [255] = .error .utf8Error
    ∧ (Except.error .utf8Error : Except MakeErr (List Nat)) ≠ .ok resp400 :=
  ⟨rfl, fun h => Except.noConfusion h⟩

/-- Claim C4 as amended: for every input byte sequence that is not valid
UTF-8 text, `make_response` returns a decoding error, which the caller
treats as a handler failure (logged); no 400 response is produced. -/
theorem c4_invalid_utf8_is_handler_error (cwd : List Char) (fs : FS) (b : List Nat)
    (hdec : utf8Decode b = none) : make_response cwd fs b = .error .utf8Error :=
  make_response_badutf8 cwd fs b hdec

/-- Witness for the amended C4 at the concrete invalid byte 255. -/
theorem c4_witness : make_response [] emptyFS [255] = .error .utf8Error :=
  c4_invalid_utf8_is_handler_error [] emptyFS [255] (by decide)

/-- Counterexample to claim C5 as stated: a read failure after a successful
open (e.g. the path names a directory) is NOT collapsed to 404 — the `?` on
`read_to_end` propagates it as an error instead. Concretely, on a filesystem
where every open succeeds but every read fails, a valid GET yields an error,
not the 404 bytes. -/
theorem c5_counterexample :
    make_response [] readErrFS (asciiOf "GET /x HTTP/1.0\r\n\r\n") = .error .readFailed
    ∧ (Except.error .readFailed : Except MakeErr (List Nat)) ≠ .ok resp404 :=
  ⟨rfl, fun h => Except.noConfusion h⟩

/-- Claim C5 as amended: for a valid GET request line, a failure to OPEN the
resolved file yields the 404 Not Found response (open-failure causes are not
distinguished), but a failure to READ after a successful open propagates as
a handler error instead of a 404. -/
theorem c5_open_fail_404_read_fail_error (cwd : List Char) (fs : FS) (b : List Nat)
    (s p : List Char) (v : Char)
    (hdec : utf8Decode b = some s)
    (hparse : searchFrom s = some (("GET").toList, p, v)) :
    (fs (cwd ++ WEBROOT ++ p) = .absent → make_response cwd fs b = .ok resp404)
    ∧ (fs (cwd ++ WEBROOT ++ p) = .readError →
        make_response cwd fs b = .error .readFailed) := by
  constructor <;> intro hfile <;>
    (rw [make_response_parsed cwd fs b s (("GET").toList) p v hdec hparse,
      if_pos rfl, hfile]; try rfl)

/-- Witness for the amended C5: `GET /missing` on an empty filesystem gives
exactly the 404 bytes, and the same request on the read-failing filesystem
gives the propagated error. -/
theorem c5_witness :
    make_response [] emptyFS (asciiOf "GET /missing HTTP/1.0\r\n\r\n") = .ok resp404
    ∧ make_response [] readErrFS (asciiOf "GET /missing HTTP/1.0\r\n\r\n")
      = .error .readFailed := by
  constructor
  · exact (c5_open_fail_404_read_fail_error [] emptyFS
      (asciiOf "GET /missing HTTP/1.0\r\n\r\n")
      (("GET /missing HTTP/1.0\r\n\r\n").toList) (("/missing").toList) '0'
      (by decide) (by decide)).1 (by decide)
  · exact (c5_open_fail_404_read_fail_error [] readErrFS
      (asciiOf "GET /missing HTTP/1.0\r\n\r\n")
      (("GET /missing HTTP/1.0\r\n\r\n").toList) (("/missing").toList) '0'
      (by decide) (by decide)).2 (by decide)

/-- Counterexample to claim C6 as stated: when registering the accepted
socket fails, the `?` operator returns before `next_connection_id += 1`, so
the counter does NOT advance (and no table entry is created). Concretely,
from counter value 5 a failed registration leaves the state exactly as it
was, and 5 is not the advanced value 6. -/
theorem c6_counterexample :
    (register_connection ⟨[], 5⟩ 9 .failure).1 = (⟨[], 5⟩ : WebServer)
    ∧ (register_connection ⟨[], 5⟩ 9 .failure).1.next_connection_id ≠ 5 + 1 := by
  refine ⟨rfl, by decide⟩

/-- Claim C6 as amended: a registration failure is reported to the caller
(which logs it) and leaves the server state unchanged — the counter does not
advance and nothing is inserted; only a successful registration inserts the
socket under the current identifier and advances the counter. -/
theorem c6_register_failure_no_advance (srv : WebServer) (stream : Nat) :
    register_connection srv stream .failure = (srv, some .registerFailed)
    ∧ (register_connection srv stream .success).1.next_connection_id
        = srv.next_connection_id + 1
    ∧ lookupConn (register_connection srv stream .success).1.connections
        srv.next_connection_id = some stream := by
  refine ⟨rfl, rfl, ?_⟩
  show lookupConn (insertConn srv.connections srv.next_connection_id stream)
      srv.next_connection_id = some stream
  rw [insertConn, lookupConn, if_pos rfl]

/-- Counterexample to claim C7 as stated: the input
`GET /x HTTP/1x0\r\n\r\n` does not match the required request-line shape
(there is no `HTTP/1.` protocol suffix — the input contains no dot at all),
yet `make_response` does not return 400: the unescaped `.` in the pattern
accepts the `x`, and the request is processed as a retrieval (404 on an
empty filesystem). -/
theorem c7_counterexample :
    ¬ requiredShape (("GET /x HTTP/1x0\r\n\r\n").toList)
    ∧ make_response [] emptyFS (asciiOf "GET /x HTTP/1x0\r\n\r\n") = .ok resp404
    ∧ resp404 ≠ resp400 := by
  refine ⟨?_, rfl, by decide⟩
  rintro ⟨m, p, d, r, _hd, heq⟩
  have hdot : ('.' : Char) ∈ (("GET /x HTTP/1x0\r\n\r\n").toList) := by
    rw [heq]
    simp [List.mem_append]
  exact absurd hdot (by decide)

/-- Claim C7 as amended: for every valid-UTF-8 input in which the pattern
`(.*) (.*) HTTP/1.([0-1])\r\n.*` finds no match anywhere (in particular
empty input, or input missing any protocol suffix), `make_response` returns
exactly the 400 Bad Request bytes; but the pattern's unescaped dot accepts
any non-newline character in that position, so the shape accepted is wider
than `HTTP/1.` followed by a digit. -/
theorem c7_no_match_yields_400 (cwd : List Char) (fs : FS) (b : List Nat)
    (s : List Char) (hdec : utf8Decode b = some s)
    (hparse : searchFrom s = none) :
    make_response cwd fs b = .ok resp400 := by
  rw [make_response_nomatch cwd fs b s hdec hparse]
  rfl

/-- Witness for the amended C7 at the concrete empty input. -/
theorem c7_witness : make_response [] emptyFS [] = .ok resp400 :=
  c7_no_match_yields_400 [] emptyFS [] [] (by decide) (by decide)

/-- Claim C8: every well-formed request line whose method capture is anything
other than `GET` produces exactly the 501 Not Implemented bytes — which
differ from the 400, 404 and 200 responses. -/
theorem c8_non_get_yields_501 (cwd : List Char) (fs : FS) (b : List Nat)
    (s m p : List Char) (v : Char)
    (hdec : utf8Decode b = some s)
    (hparse : searchFrom s = some (m, p, v))
    (hm : m ≠ ("GET").toList) :
    make_response cwd fs b = .ok resp501
    ∧ resp501 ≠ resp404 ∧ resp501 ≠ resp400 ∧ resp501 ≠ resp200hdr := by
  refine ⟨?_, by decide, by decide, by decide⟩
  rw [make_response_parsed cwd fs b s m p v hdec hparse, if_neg hm]
  rfl

/-- Witness for C8, the spec's own scenario: `DELETE /x HTTP/1.0` yields
the literal 501 response. -/
theorem c8_witness :
    make_response [] emptyFS (asciiOf "DELETE /x HTTP/1.0\r\n\r\n") = .ok resp501 :=
  (c8_non_get_yields_501 [] emptyFS (asciiOf "DELETE /x HTTP/1.0\r\n\r\n")
    (("DELETE /x HTTP/1.0\r\n\r\n").toList) (("DELETE").toList) (("/x").toList) '0'
    (by decide) (by decide) (by decide)).1

/-- Claim C9: on a readable event delivering a zero-length read, the handler
removes exactly that connection (every other table entry is unchanged),
leaves the shared response buffer untouched, writes nothing, and returns
success rather than an error. -/
theorem c9_zero_read_removes_silently (conns : List (Nat × Nat))
    (response : List Nat) (conn_id sock : Nat) (w : Bool)
    (rereg write : IOOutcome) (cwd : List Char) (fs : FS)
    (hlook : lookupConn conns conn_id = some sock) :
    http_handler conns response conn_id true w (some []) rereg write cwd fs
      = (⟨removeConn conns conn_id, response, none⟩, none)
    ∧ ∀ j, j ≠ conn_id →
        lookupConn (removeConn conns conn_id) j = lookupConn conns j := by
  constructor
  · unfold http_handler; rw [hlook]; rfl
  · exact fun j hj => lookupConn_removeConn conns conn_id j hj

/-- Witness for C9 at a concrete two-connection table: connection 1 is
removed, connection 2 survives, the buffer is unchanged and no error is
returned. -/
theorem c9_witness :
    http_handler [(1, 7), (2, 8)] [42] 1 true false (some []) .success .success [] emptyFS
      = (⟨[(2, 8)], [42], none⟩, none)
    ∧ lookupConn (removeConn [(1, 7), (2, 8)] 1) 2 = lookupConn [(1, 7), (2, 8)] 2 := by
  have h := c9_zero_read_removes_silently [(1, 7), (2, 8)] [42] 1 7 false
    .success .success [] emptyFS (by decide)
  exact ⟨h.1.trans rfl, h.2 2 (by decide)⟩

/-- Claim C10: the set of decoded inputs accepted as well-formed is exactly
the language of the regex `(.*) (.*) HTTP/1.([0-1])\r\n.*` under its real
semantics (`.` is any non-newline character, match may start anywhere); in
particular `GET /x HTTP/1x0\r\n\r\n` is accepted and served as a retrieval
of `/x`, while `GET /x HTTP/1.2\r\n\r\n` (version digit not 0 or 1) gets
the 400 response. -/
theorem c10_regex_language :
    (∀ s : List Char, (searchFrom s).isSome = true ↔ regexMatchable s)
    ∧ make_response [] xFS (asciiOf "GET /x HTTP/1x0\r\n\r\n")
        = .ok (resp200hdr ++ [88])
    ∧ make_response [] xFS (asciiOf "GET /x HTTP/1.2\r\n\r\n") = .ok resp400 :=
  ⟨searchFrom_isSome_iff, rfl, rfl⟩

end WebSrv
